import Mathlib

/-!
Shallow embedding of the karaser front-end pipeline (markup parser,
stylesheet parser, style resolver) and proofs about it.

Parser state is modelled as the list of remaining input characters
(`Peekable<Chars>` in `src/parsers/css-parser.rs`, the `pos`/`input` pair
in `src/parser/mod.rs`). Loops whose bodies may consume no input are given
an explicit fuel parameter; `none` (resp. an out-of-fuel error) at every
fuel value witnesses non-termination of the corresponding Rust loop, and a
`some` result at any concrete fuel is the value the Rust code returns.
`f32` values are modelled as rationals: every numeric value this codebase
constructs is a small nonnegative integer or a 0.0/1.0 literal, all exactly
representable in `f32`.
-/

/-- Both `CssParser::consume_while` and `Parser::consume_while`: consume the
maximal leading run of characters satisfying `p`, returning the run and the
remaining input. -/
def consumeWhile (p : Char → Bool) : List Char → List Char × List Char
  | [] => ([], [])
  | c :: cs =>
    if p c then
      let r := consumeWhile p cs
      (c :: r.1, r.2)
    else ([], c :: cs)

theorem consumeWhile_eq (p : Char → Bool) (cs : List Char) :
    consumeWhile p cs = (cs.takeWhile p, cs.dropWhile p) := by
  induction cs with
  | nil => rfl
  | cons c cs ih =>
    by_cases h : p c <;> simp [consumeWhile, List.takeWhile, List.dropWhile, h, ih]

theorem consumeWhile_cons_of_neg (p : Char → Bool) (c : Char) (cs : List Char)
    (h : p c = false) : consumeWhile p (c :: cs) = ([], c :: cs) := by
  simp [consumeWhile, h]

/-- `consume_while(char::is_whitespace)`, keeping only the rest of the input.
Models the ASCII range of Rust `char::is_whitespace`; every whitespace
character appearing in this development is ASCII. -/
def skipWs (cs : List Char) : List Char := (consumeWhile Char.isWhitespace cs).2

theorem skipWs_cons_of_neg (c : Char) (cs : List Char)
    (h : c.isWhitespace = false) : skipWs (c :: cs) = c :: cs := by
  simp [skipWs, consumeWhile, h]

/-- Rust `str::to_lowercase`, modelled characterwise; faithful on the ASCII
strings this development manipulates. -/
def toLowerStr (cs : List Char) : String := String.mk (cs.map Char.toLower)

namespace Css

/-- `css.rs`: `Color { r, g, b, a: f32 }`, components modelled as rationals. -/
structure Color where
  r : Rat
  g : Rat
  b : Rat
  a : Rat
  deriving DecidableEq

def Color.new (r g b a : Rat) : Color := ⟨r, g, b, a⟩

/-- `css.rs`: the `Unit` enumeration. -/
inductive Unit where
  | Px
  | Em
  | Rem
  | Vh
  | Vw
  | Vmin
  | Vmax
  deriving DecidableEq

/-- `css.rs`: the `Value` variant. -/
inductive Value where
  | Color (c : Color)
  | Length (n : Rat) (u : Unit)
  | Other (s : String)
  deriving DecidableEq

/-- `css.rs`: `SimpleSelector`. -/
structure SimpleSelector where
  tag_name : Option String
  id : Option String
  classes : List String
  deriving DecidableEq

/-- `css.rs`: `Selector`. -/
structure Selector where
  simple : List SimpleSelector
  combinators : List Char
  deriving DecidableEq

/-- `css.rs`: `Declaration`. -/
structure Declaration where
  property : String
  value : Value
  deriving DecidableEq

/-- `css.rs`: `Rule`. -/
structure Rule where
  selectors : List Selector
  declarations : List Declaration
  deriving DecidableEq

/-- `css.rs`: `Stylesheet`. -/
structure Stylesheet where
  rules : List Rule
  deriving DecidableEq

/-- `css.rs`: `impl Default for SimpleSelector`. -/
def SimpleSelector.default : SimpleSelector := ⟨none, none, []⟩

/-- `css.rs`: `impl Default for Selector`. -/
def Selector.default : Selector := ⟨[], []⟩

end Css

namespace CssParser

open Css

/-- `css-parser.rs`: `is_upper_letter`. -/
def is_upper_letter (c : Char) : Bool := decide ('A' ≤ c) && decide (c ≤ 'Z')

/-- `css-parser.rs`: `is_lower_letter`. -/
def is_lower_letter (c : Char) : Bool := decide ('a' ≤ c) && decide (c ≤ 'z')

/-- `css-parser.rs`: `is_letter`. -/
def is_letter (c : Char) : Bool := is_upper_letter c || is_lower_letter c

/-- `css-parser.rs`: `is_non_ascii`. -/
def is_non_ascii (c : Char) : Bool := decide ('\u0080' ≤ c)

/-- `css-parser.rs`: `is_valid_start_ident`. -/
def is_valid_start_ident (c : Char) : Bool := is_letter c || is_non_ascii c || c == '_'

/-- `css-parser.rs`: `is_valid_ident`; `c.is_digit(10)` is `Char.isDigit`. -/
def is_valid_ident (c : Char) : Bool := is_valid_start_ident c || c.isDigit || c == '-'

/-- `css-parser.rs`: `CssParser::parse_identifier`. -/
def parse_identifier (cs : List Char) : String × List Char :=
  match cs with
  | [] => ("", [])
  | c :: rest =>
    if is_valid_start_ident c then
      let r := consumeWhile is_valid_ident (c :: rest)
      (toLowerStr r.1, r.2)
    else ("", c :: rest)

/-- `css-parser.rs`: `CssParser::parse_id`. -/
def parse_id (cs : List Char) : Option String × List Char :=
  let r := parse_identifier cs
  (if r.1 = "" then none else some r.1, r.2)

/-- The continuation condition of the token-scan `while` loop inside
`CssParser::parse_selector` (line 63-67), exactly as written in the source:
the next character must equal `,`, differ from `{`, and not be whitespace. -/
def sel_loop_guard (c : Char) : Bool := c == ',' && c != '{' && !c.isWhitespace

/-- The token-scan `while` loop inside `CssParser::parse_selector`
(lines 62-92), with fuel counting loop iterations. `none` means the loop has
not finished within the given fuel. -/
def parse_selector_loop : Nat → SimpleSelector → Bool → List Char →
    Option (SimpleSelector × List Char)
  | 0, _, _, _ => none
  | fuel + 1, simple_sel, multiple_ids, cs =>
    match cs with
    | [] => some (simple_sel, [])
    | c :: rest =>
      if sel_loop_guard c then
        if c = '#' then
          if simple_sel.id.isSome || multiple_ids then
            let r := parse_id rest
            parse_selector_loop fuel { simple_sel with id := none } true r.2
          else
            let r := parse_id rest
            parse_selector_loop fuel { simple_sel with id := r.1 } multiple_ids r.2
        else if c = '.' then
          let r := parse_identifier rest
          let simple_sel' :=
            if r.1 ≠ "" then { simple_sel with classes := simple_sel.classes ++ [r.1] }
            else simple_sel
          parse_selector_loop fuel simple_sel' multiple_ids r.2
        else
          let r := consumeWhile (fun x => x != ',' && x != '{') (c :: rest)
          parse_selector_loop fuel simple_sel multiple_ids r.2
      else some (simple_sel, c :: rest)

/-- `css-parser.rs`: `CssParser::parse_selector`. -/
def parse_selector (fuel : Nat) (cs : List Char) : Option (Selector × List Char) :=
  let cs1 := skipWs cs
  let tagged : Option String × List Char :=
    match cs1 with
    | [] => (none, cs1)
    | c :: _ =>
      if is_valid_start_ident c then
        let r := parse_identifier cs1
        (some r.1, r.2)
      else (none, cs1)
  match parse_selector_loop fuel ⟨tagged.1, none, []⟩ false tagged.2 with
  | none => none
  | some (simple_sel, rest) =>
    some (if simple_sel ≠ SimpleSelector.default then ⟨[simple_sel], []⟩
          else Selector.default, rest)

/-- The `while` loop of `CssParser::parse_selectors` (lines 34-45), with fuel
counting loop iterations. -/
def parse_selectors_loop : Nat → List Selector → List Char →
    Option (List Selector × List Char)
  | 0, _, _ => none
  | fuel + 1, selectors, cs =>
    match cs with
    | [] => some (selectors, [])
    | c :: _ =>
      if c ≠ '{' then
        match parse_selector fuel cs with
        | none => none
        | some (selector, cs1) =>
          let selectors' :=
            if selector ≠ Selector.default then selectors ++ [selector] else selectors
          let cs2 := skipWs cs1
          let cs3 := match cs2 with
            | ',' :: r => r
            | _ => cs2
          parse_selectors_loop fuel selectors' cs3
      else some (selectors, cs)

/-- `css-parser.rs`: `CssParser::parse_selectors` (the loop followed by the
trailing `self.chars.next()`, which consumes the `{` when present). -/
def parse_selectors (fuel : Nat) (cs : List Char) : Option (List Selector × List Char) :=
  match parse_selectors_loop fuel [] cs with
  | none => none
  | some (selectors, rest) => some (selectors, rest.drop 1)

/-- `css-parser.rs`: `translate_color`. -/
def translate_color (color : String) : Color :=
  match color with
  | "black" => Color.new 0 0 0 1
  | "white" => Color.new 1 1 1 1
  | "red" => Color.new 1 0 0 1
  | "green" => Color.new 0 1 0 1
  | "blue" => Color.new 0 0 1 1
  | _ => Color.new 0 0 0 1

/-- Rust `char::is_numeric`, as used by `translate_length`. Faithful on
ASCII, where it holds exactly of the decimal digits; non-ASCII
Number-category characters (on which the subsequent `f32` parse would fail
anyway) are not modelled. -/
def char_is_numeric (c : Char) : Bool := c.isDigit

/-- The `for` loop of `translate_length` (lines 217-224): split the input
into the accumulated numeral and unit strings, threading the `parsing_num`
flag. -/
def length_scan : List Char → Bool → List Char × List Char
  | [], _ => ([], [])
  | ch :: rest, parsing_num =>
    if char_is_numeric ch && parsing_num then
      let r := length_scan rest parsing_num
      (ch :: r.1, r.2)
    else
      let r := length_scan rest false
      (r.1, ch :: r.2)

/-- Decimal value of a digit string. -/
def digitsToNat (cs : List Char) : Nat :=
  cs.foldl (fun a c => 10 * a + (c.toNat - '0'.toNat)) 0

/-- Rust `num_str.parse::<f32>().unwrap_or(0.0)` on the strings
`translate_length` produces: parsing succeeds exactly when the numeral is a
nonempty string of ASCII digits, and the value is its decimal reading
(exact in `f32` for the magnitudes arising in this development). -/
def parse_f32_or_zero (cs : List Char) : Rat :=
  if cs ≠ [] ∧ cs.all Char.isDigit then (digitsToNat cs : Rat) else 0

/-- The unit-string match at the end of `translate_length` (lines 228-238). -/
def unit_from_string (unit : String) : Css.Unit :=
  match unit with
  | "px" => Unit.Px
  | "em" => Unit.Em
  | "rem" => Unit.Rem
  | "vh" => Unit.Vh
  | "vw" => Unit.Vw
  | "vmin" => Unit.Vmin
  | "vmax" => Unit.Vmax
  | _ => Unit.Px

/-- `css-parser.rs`: `translate_length`. -/
def translate_length (length : String) : Value :=
  let r := length_scan length.toList true
  Value.Length (parse_f32_or_zero r.1) (unit_from_string (String.mk r.2))

/-- The property-name dispatch inside `CssParser::parse_declarations`
(lines 139-160) classifying a raw value string by property name. -/
def value_for_property (property val : String) : Value :=
  match property with
  | "background-color" | "border-color" | "color" => Value.Color (translate_color val)
  | "margin" | "padding" | "margin-top" | "margin-left" | "margin-right"
  | "margin-bottom" | "padding-top" | "padding-left" | "padding-right"
  | "padding-bottom" | "border-top-width" | "border-left-width"
  | "border-right-width" | "border-bottom-width" | "width" | "height" =>
    translate_length val
  | _ => Value.Other val

/-- The commit step of `CssParser::parse_declarations` (lines 164-172):
consume a terminating `;` and commit, or skip whitespace and commit only
when the next character is `}`, and otherwise silently drop the
declaration. -/
def commit_declaration (declaration : Declaration) (decls : List Declaration)
    (cs : List Char) : List Declaration × List Char :=
  if cs.head? = some ';' then (decls ++ [declaration], cs.drop 1)
  else
    let cs1 := skipWs cs
    if cs1.head? = some '}' then (decls ++ [declaration], cs1)
    else (decls, cs1)

/-- The `while` loop of `CssParser::parse_declarations` (lines 128-174). -/
def parse_declarations_loop : Nat → List Declaration → List Char →
    Option (List Declaration × List Char)
  | 0, _, _ => none
  | fuel + 1, decls, cs =>
    match cs with
    | [] => some (decls, [])
    | c :: _ =>
      if c ≠ '}' then
        let cs1 := skipWs cs
        let p := consumeWhile (fun x => x != ':') cs1
        let property := toLowerStr p.1
        let cs2 := p.2.drop 1
        let cs3 := skipWs cs2
        let v := consumeWhile (fun x => x != ';' && x != '\n' && x != '{') cs3
        let val := toLowerStr v.1
        let declaration : Declaration := ⟨property, value_for_property property val⟩
        let r := commit_declaration declaration decls v.2
        parse_declarations_loop fuel r.1 (skipWs r.2)
      else some (decls, cs)

/-- `css-parser.rs`: `CssParser::parse_declarations` (the loop followed by
the trailing `self.chars.next()`, which consumes the `}` when present). -/
def parse_declarations (fuel : Nat) (cs : List Char) :
    Option (List Declaration × List Char) :=
  match parse_declarations_loop fuel [] cs with
  | none => none
  | some (decls, rest) => some (decls, rest.drop 1)

/-- The `while` loop of `CssParser::parse_stylesheet` (lines 20-26). -/
def parse_stylesheet_loop : Nat → List Rule → List Char → Option (List Rule)
  | 0, _, _ => none
  | fuel + 1, rules, cs =>
    match cs with
    | [] => some rules
    | _ :: _ =>
      match parse_selectors fuel cs with
      | none => none
      | some (selectors, cs1) =>
        match parse_declarations fuel cs1 with
        | none => none
        | some (styles, cs2) =>
          parse_stylesheet_loop fuel (rules ++ [⟨selectors, styles⟩]) cs2

/-- `css-parser.rs`: `CssParser::parse_stylesheet`, from the raw stylesheet
string. `none` means the parse did not finish within the given fuel;
`none` at every fuel value means the Rust code never terminates. -/
def parse_stylesheet (fuel : Nat) (css : String) : Option Stylesheet :=
  (parse_stylesheet_loop fuel [] css.toList).map Stylesheet.mk

end CssParser

namespace ParserDom

/-- `dom/mod.rs`: `ElementData` (the representation consumed by
`parser/mod.rs`); the attribute `HashMap` is modelled as an association
list with unique keys. -/
structure ElementData where
  tag_name : String
  attrs : List (String × String)

/-- `dom/mod.rs`: `NodeType`. -/
inductive NodeType where
  | Text (s : String)
  | Element (e : ElementData)

/-- `dom/mod.rs`: `Node`. -/
inductive Node where
  | mk (children : List Node) (node_type : NodeType)

def Node.children : Node → List Node
  | ⟨c, _⟩ => c

def Node.node_type : Node → NodeType
  | ⟨_, t⟩ => t

/-- `dom/mod.rs`: `text`. -/
def text (data : String) : Node := ⟨[], NodeType.Text data⟩

/-- `dom/mod.rs`: `elem`. -/
def elem (tag_name : String) (attrs : List (String × String)) (children : List Node) :
    Node := ⟨children, NodeType.Element ⟨tag_name, attrs⟩⟩

end ParserDom

namespace Markup

open ParserDom

/-- The ways `parser/mod.rs` aborts: a failed `expect` (`panic!`), consuming
a character with none remaining (`unwrap` of `None`), the two quote
assertions in `parse_attr_value`, and exhaustion of the embedding's fuel. -/
inductive MarkupError where
  | expectedNotFound (s : String)
  | endOfInput
  | quoteAssert
  | quoteMismatch
  | outOfFuel
  deriving DecidableEq

/-- `parser/mod.rs`: `Parser::starts_with`, on the remaining input. -/
def starts_with (s : String) (cs : List Char) : Bool := s.toList.isPrefixOf cs

/-- `parser/mod.rs`: `Parser::expect`: advance past the literal or fail
fatally. -/
def expect (s : String) (cs : List Char) : Except MarkupError (List Char) :=
  if starts_with s cs then .ok (cs.drop s.toList.length)
  else .error (.expectedNotFound s)

/-- The character set of the closure in `Parser::parse_name`
(`matches!(c, 'a'..'z' | 'A'..'Z' | '0'..'9')`). Rust `..` range patterns
exclude their upper bound, so `'z'`, `'Z'` and `'9'` are not accepted. -/
def name_char (c : Char) : Bool :=
  (decide ('a' ≤ c) && decide (c < 'z')) ||
  (decide ('A' ≤ c) && decide (c < 'Z')) ||
  (decide ('0' ≤ c) && decide (c < '9'))

/-- `parser/mod.rs`: `Parser::parse_name`. -/
def parse_name (cs : List Char) : String × List Char :=
  let r := consumeWhile name_char cs
  (String.mk r.1, r.2)

/-- `parser/mod.rs`: `Parser::parse_text`. -/
def parse_text (cs : List Char) : Node × List Char :=
  let r := consumeWhile (fun c => c != '<') cs
  (text (String.mk r.1), r.2)

/-- `parser/mod.rs`: `Parser::parse_attr_value`: consume the opening quote
(asserting it is `"` or `'`), the value, and the matching closing quote. -/
def parse_attr_value (cs : List Char) : Except MarkupError (String × List Char) :=
  match cs with
  | [] => .error .endOfInput
  | open_quote :: rest =>
    if open_quote = '"' ∨ open_quote = '\'' then
      let r := consumeWhile (fun c => c != open_quote) rest
      match r.2 with
      | [] => .error .endOfInput
      | close_quote :: rest2 =>
        if close_quote = open_quote then .ok (String.mk r.1, rest2)
        else .error .quoteMismatch
    else .error .quoteAssert

/-- `parser/mod.rs`: `Parser::parse_attr`. -/
def parse_attr (cs : List Char) : Except MarkupError ((String × String) × List Char) := do
  let n := parse_name cs
  let cs1 ← expect "=" n.2
  let v ← parse_attr_value cs1
  .ok ((n.1, v.1), v.2)

/-- `HashMap::insert` on the association-list model of `AttrMap`: replace
the binding when the key is present, append it otherwise. -/
def insertAttr (attrs : List (String × String)) (name value : String) :
    List (String × String) :=
  if attrs.any (fun p => p.1 = name) then
    attrs.map (fun p => if p.1 = name then (name, value) else p)
  else attrs ++ [(name, value)]

/-- The last three `expect` calls of `Parser::parse_element` (lines 78-80):
the closing-tag phase `</`, the opening tag's name, `>`. -/
def parse_element_close (tag_name : String) (cs : List Char) :
    Except MarkupError (List Char) := do
  let cs1 ← expect "</" cs
  let cs2 ← expect tag_name cs1
  expect ">" cs2

mutual

/-- `parser/mod.rs`: `Parser::parse_node`. -/
def parse_node : Nat → List Char → Except MarkupError (Node × List Char)
  | 0, _ => .error .outOfFuel
  | fuel + 1, cs =>
    if starts_with "<" cs then parse_element fuel cs
    else .ok (parse_text cs)

/-- `parser/mod.rs`: `Parser::parse_element`. -/
def parse_element : Nat → List Char → Except MarkupError (Node × List Char)
  | 0, _ => .error .outOfFuel
  | fuel + 1, cs => do
    let cs1 ← expect "<" cs
    let n := parse_name cs1
    let a ← parse_attrs fuel [] n.2
    let cs2 ← expect ">" a.2
    let ch ← parse_nodes fuel [] cs2
    let cs3 ← parse_element_close n.1 ch.2
    .ok (elem n.1 a.1 ch.1, cs3)

/-- The `loop` of `Parser::parse_attrs` (lines 105-112), with the map built
so far as accumulator; `next_char` at end of input is the `unwrap` panic. -/
def parse_attrs : Nat → List (String × String) → List Char →
    Except MarkupError (List (String × String) × List Char)
  | 0, _, _ => .error .outOfFuel
  | fuel + 1, attrs, cs =>
    let cs1 := skipWs cs
    match cs1 with
    | [] => .error .endOfInput
    | c :: rest =>
      if c = '>' then .ok (attrs, c :: rest)
      else do
        let a ← parse_attr (c :: rest)
        parse_attrs fuel (insertAttr attrs a.1.1 a.1.2) a.2

/-- The `loop` of `Parser::parse_nodes` (lines 118-124), with the nodes
parsed so far as accumulator. -/
def parse_nodes : Nat → List Node → List Char →
    Except MarkupError (List Node × List Char)
  | 0, _, _ => .error .outOfFuel
  | fuel + 1, nodes, cs =>
    let cs1 := skipWs cs
    if cs1.isEmpty || starts_with "</" cs1 then .ok (nodes, cs1)
    else do
      let n ← parse_node fuel cs1
      parse_nodes fuel (nodes ++ [n.1]) n.2

end

/-- `parser/mod.rs`: `Parser::parse`: parse the top-level nodes; a single
node is returned as the root, any other count is wrapped in a synthesized
`html` element. -/
def parse (fuel : Nat) (source : String) : Except MarkupError Node :=
  match parse_nodes fuel [] source.toList with
  | .error e => .error e
  | .ok (nodes, _) =>
    match nodes with
    | [node] => .ok node
    | ns => .ok (elem "html" [] ns)

end Markup

namespace Dom

/-- `dom.rs`: `ElementData`; the attribute `HashMap` is modelled as an
association list with unique keys, `get` as `lookup`. -/
structure ElementData where
  tag_name : String
  attributes : List (String × String)

/-- `dom.rs`: `NodeType`. -/
inductive NodeType where
  | Text (s : String)
  | Element (e : ElementData)
  | Comment (s : String)

/-- `dom.rs`: `Node`. -/
inductive Node where
  | mk (children : List Node) (node_type : NodeType)

/-- `dom.rs`: `ElementData::get_id`. -/
def ElementData.get_id (e : ElementData) : Option String :=
  e.attributes.lookup "id"

/-- `dom.rs`: `ElementData::get_classes`: the `class` attribute split on
single spaces (`HashSet` membership is membership in the split list). -/
def ElementData.get_classes (e : ElementData) : List String :=
  match e.attributes.lookup "class" with
  | some s => s.splitOn " "
  | none => []

end Dom

namespace Styles

open Css Dom

/-- `styles.rs`: `Display`. -/
inductive Display where
  | Block
  | Inline
  | InlineBlock
  | None
  deriving DecidableEq

/-- `styles.rs`: `StyledNode`; the borrowed `PropertyMap` is modelled as an
association list of property names and values. -/
inductive StyledNode where
  | mk (node : Dom.Node) (styles : List (String × Value)) (children : List StyledNode)

def StyledNode.styles : StyledNode → List (String × Value)
  | ⟨_, s, _⟩ => s

def StyledNode.children : StyledNode → List StyledNode
  | ⟨_, _, c⟩ => c

/-- `styles.rs`: `StyledNode::value`. -/
def StyledNode.value (sn : StyledNode) (name : String) : Option Value :=
  sn.styles.lookup name

/-- `styles.rs`: `StyledNode::get_display`. -/
def StyledNode.get_display (sn : StyledNode) : Display :=
  match sn.value "display" with
  | some s =>
    match s with
    | Value.Other v =>
      match v with
      | "block" => Display.Block
      | "none" => Display.None
      | "inline" => Display.Inline
      | "inline-block" => Display.InlineBlock
      | _ => Display.Inline
    | _ => Display.Inline
  | none => Display.None

/-- `styles.rs`: `StyledNode::num_or`. -/
def StyledNode.num_or (sn : StyledNode) (name : String) (def_ : Rat) : Rat :=
  match sn.value name with
  | some v =>
    match v with
    | Value.Length n _ => n
    | _ => def_
  | none => def_

/-- One iteration of the `for simple in &sel.simple` loop body of
`is_selector_matches` (lines 97-135): `continue` on a tag or id mismatch,
then `matches` is the conjunction of the class checks. -/
def simple_matches (el : ElementData) (simple : SimpleSelector) : Bool :=
  (match simple.tag_name with
   | some t => t == el.tag_name
   | none => true) &&
  (match el.get_id, simple.id with
   | some i, some id => i == id
   | some _, none => true
   | none, some _ => false
   | none, none => true) &&
  simple.classes.all (fun class_ => el.get_classes.contains class_)

/-- `styles.rs`: `is_selector_matches`: true on the first simple selector
of the list that passes all its checks. -/
def is_selector_matches (el : ElementData) (sel : Selector) : Bool :=
  sel.simple.any (simple_matches el)

end Styles

/-! Helper lemmas shared by the claim theorems. -/

theorem length_scan_false (cs : List Char) : CssParser.length_scan cs false = ([], cs) := by
  induction cs with
  | nil => rfl
  | cons c cs ih => simp [CssParser.length_scan, ih]

theorem length_scan_true (cs : List Char) :
    CssParser.length_scan cs true =
      (cs.takeWhile CssParser.char_is_numeric, cs.dropWhile CssParser.char_is_numeric) := by
  induction cs with
  | nil => rfl
  | cons c cs ih =>
    by_cases h : CssParser.char_is_numeric c = true
    · simp [CssParser.length_scan, h, ih, List.takeWhile_cons, List.dropWhile_cons]
    · simp only [Bool.not_eq_true] at h
      simp [CssParser.length_scan, h, length_scan_false, List.takeWhile_cons,
        List.dropWhile_cons]

/-- The token-scan loop inside `CssParser::parse_selector` never terminates
when the next unconsumed character is a comma: its guard holds, yet no arm
of its body consumes anything. -/
theorem parse_selector_loop_comma (rest : List Char) :
    ∀ (f : Nat) (ss : Css.SimpleSelector) (mids : Bool),
      CssParser.parse_selector_loop f ss mids (',' :: rest) = none := by
  intro f
  induction f with
  | zero => intro ss mids; rfl
  | succ f ih => intro ss mids; exact ih ss mids

/-- The selector-list loop of `CssParser::parse_selectors` never terminates
when the text at a selector position starts with a character that is not a
valid identifier start, not `{`, and not whitespace: `parse_selector`
consumes nothing there (or itself spins, when the character is a comma). -/
theorem parse_selectors_loop_stuck (c : Char) (rest : List Char)
    (hident : CssParser.is_valid_start_ident c = false)
    (hbrace : c ≠ '{') (hws : c.isWhitespace = false) :
    ∀ (f : Nat) (acc : List Css.Selector),
      CssParser.parse_selectors_loop f acc (c :: rest) = none := by
  intro f
  induction f with
  | zero => intro acc; rfl
  | succ f ih =>
    intro acc
    by_cases hcomma : c = ','
    · subst hcomma
      cases f with
      | zero =>
        simp [CssParser.parse_selectors_loop, CssParser.parse_selector,
          CssParser.parse_selector_loop]
      | succ m =>
        have hsel : CssParser.parse_selector (m + 1) (',' :: rest) = none := by
          have hloop := parse_selector_loop_comma rest (m + 1)
            ⟨none, none, []⟩ false
          simp [CssParser.parse_selector, skipWs_cons_of_neg _ _ hws, hident, hloop]
        simp [CssParser.parse_selectors_loop, hsel]
    · cases f with
      | zero =>
        simp [CssParser.parse_selectors_loop, CssParser.parse_selector,
          CssParser.parse_selector_loop, hbrace]
      | succ m =>
        have hguard : CssParser.sel_loop_guard c = false := by
          simp [CssParser.sel_loop_guard, hcomma]
        have hsel : CssParser.parse_selector (m + 1) (c :: rest) =
            some (Css.Selector.default, c :: rest) := by
          simp [CssParser.parse_selector, skipWs_cons_of_neg _ _ hws, hident,
            CssParser.parse_selector_loop, hguard, Css.SimpleSelector.default]
        have hrec := ih acc
        simp [CssParser.parse_selectors_loop, hbrace, hsel,
          skipWs_cons_of_neg _ _ hws, hcomma, Css.Selector.default] at hrec ⊢
        exact hrec


/-! Claim theorems. -/

/-- C1: parsing the stylesheet `"p \x7b color: red; \x7d"` yields exactly one
rule, whose selectors are one `Selector` holding a single `SimpleSelector`
with tag name `p`, no id and no classes, and whose declarations are the
single declaration `color: Color(1,0,0,1)`. The `some` result at fuel 32
is the value the Rust loops return. -/
theorem c1_stylesheet_red_keyword :
    CssParser.parse_stylesheet 32 "p \x7b color: red; \x7d" =
      some ⟨[⟨[⟨[⟨some "p", none, []⟩], []⟩],
             [⟨"color", Css.Value.Color ⟨1, 0, 0, 1⟩⟩]⟩]⟩ := by rfl

/-- C3 counterexample: an element that has an `id` attribute is *not*
rejected by a simple selector whose id constraint is absent — on
`<div id="x">` the selector `div` (tag only, no id) matches, where the
claim says it must be treated as non-matching. -/
theorem c3_counterexample_id_ignored :
    (Dom.ElementData.mk "div" [("id", "x")]).get_id = some "x" ∧
    Styles.is_selector_matches ⟨"div", [("id", "x")]⟩
      ⟨[⟨some "div", none, []⟩], []⟩ = true := by
  constructor <;> rfl

/-- C3 amended: when the element has an `id` attribute and the simple
selector's id constraint is `None`, the id check imposes no constraint:
the simple selector matches exactly when its tag-name constraint holds
(absent, or equal to the element's tag name) and every one of its classes
is among the element's classes. -/
theorem c3_amended_no_id_constraint (el : Dom.ElementData) (s : Css.SimpleSelector)
    (hid : el.get_id.isSome) (hsid : s.id = none) :
    Styles.simple_matches el s = true ↔
      ((s.tag_name = none ∨ s.tag_name = some el.tag_name) ∧
       ∀ c ∈ s.classes, c ∈ el.get_classes) := by
  obtain ⟨i, hi⟩ := Option.isSome_iff_exists.mp hid
  cases htag : s.tag_name with
  | none => simp [Styles.simple_matches, htag, hi, hsid, List.all_eq_true]
  | some t => simp [Styles.simple_matches, htag, hi, hsid, List.all_eq_true]

/-- C3 witness: the amended theorem applied to `<p id="y">` against the
empty simple selector. -/
theorem c3_amended_witness :
    Styles.simple_matches ⟨"p", [("id", "y")]⟩ ⟨none, none, []⟩ = true :=
  (c3_amended_no_id_constraint ⟨"p", [("id", "y")]⟩ ⟨none, none, []⟩ (by decide)
    rfl).mpr (by simp)

/-- C5 counterexample: `parse_name` does not accept `'z'` (nor `'Z'` nor
`'9'`): Rust `..` range patterns exclude their upper bound, so on input
`"z"` the scanned run is empty although `'z'` is an ASCII letter, where
the claim requires the run `"z"`. -/
theorem c5_counterexample_z_excluded :
    Markup.parse_name ['z'] = ("", ['z']) ∧
    ¬ Markup.parse_name ['z'] = ("z", []) ∧
    'a' ≤ 'z' ∧ 'z' ≤ 'z' := by decide

/-- C5 amended: `parse_name` returns the maximal leading run of characters
in `'a'..'y'`, `'A'..'Y'`, `'0'..'8'` (the source's exclusive ranges
`'a'..'z' | 'A'..'Z' | '0'..'9'`), leaving the cursor at the first
character outside that set. -/
theorem c5_amended_parse_name_take_drop (cs : List Char) :
    Markup.parse_name cs =
      (String.mk (cs.takeWhile Markup.name_char), cs.dropWhile Markup.name_char) := by
  simp [Markup.parse_name, consumeWhile_eq]

/-- C8: `translate_length` splits its input into the maximal leading run of
digit characters (the numeral) and everything after the first non-digit
(the unit, digits reappearing later included), parses the numeral with
default 0 on failure, and maps the unit string to the `Unit` enum with
default `Px`; in particular `"1e2px"` gives `Length(1, Px)` and `"em"`
gives `Length(0, Em)`. -/
theorem c8_translate_length_split :
    (∀ cs : List Char, CssParser.translate_length (String.mk cs) =
      Css.Value.Length
        (CssParser.parse_f32_or_zero (cs.takeWhile CssParser.char_is_numeric))
        (CssParser.unit_from_string (String.mk (cs.dropWhile CssParser.char_is_numeric)))) ∧
    CssParser.translate_length "1e2px" = Css.Value.Length 1 Css.Unit.Px ∧
    CssParser.translate_length "em" = Css.Value.Length 0 Css.Unit.Em ∧
    CssParser.unit_from_string "" = Css.Unit.Px ∧
    CssParser.unit_from_string "e2px" = Css.Unit.Px := by
  refine ⟨fun cs => ?_, by decide, by decide, rfl, rfl⟩
  simp [CssParser.translate_length, length_scan_true]

/-- C9: after a property/value pair is read, the declaration is committed
exactly when the next character is `;` (consumed) or, after skipping
whitespace, the next character is `}`; otherwise it is silently dropped —
never a parse error. End to end: `"p\x7bmargin:2em\n\x7d"` commits the
declaration without a `;`, and in `"p\x7bcolor:red\ncolor:blue;\x7d"` the first
declaration is dropped while the parse still succeeds. -/
theorem c9_commit_or_drop :
    (∀ (d : Css.Declaration) (acc : List Css.Declaration) (cs : List Char),
      ((CssParser.commit_declaration d acc cs).1 = acc ++ [d] ∨
       (CssParser.commit_declaration d acc cs).1 = acc) ∧
      ((CssParser.commit_declaration d acc cs).1 = acc ++ [d] ↔
        (cs.head? = some ';' ∨ (skipWs cs).head? = some '}'))) ∧
    CssParser.parse_stylesheet 64 "p\x7bmargin:2em\n\x7d" =
      some ⟨[⟨[⟨[⟨some "p", none, []⟩], []⟩],
             [⟨"margin", Css.Value.Length 2 Css.Unit.Em⟩]⟩]⟩ ∧
    CssParser.parse_stylesheet 64 "p\x7bcolor:red\ncolor:blue;\x7d" =
      some ⟨[⟨[⟨[⟨some "p", none, []⟩], []⟩],
             [⟨"color", Css.Value.Color ⟨0, 0, 1, 1⟩⟩]⟩]⟩ := by
  refine ⟨fun d acc cs => ?_, by rfl, by rfl⟩
  by_cases h1 : cs.head? = some ';'
  · simp [CssParser.commit_declaration, h1]
  · by_cases h2 : (skipWs cs).head? = some '}'
    · simp [CssParser.commit_declaration, h1, h2]
    · simp [CssParser.commit_declaration, h1, h2]

/-- C10: `get_display` returns `None` when the styles contain no
`display` property; when `display` is present with an `Other` string value
it returns `Block`, `None`, `Inline`, `InlineBlock` for the four known
strings and `Inline` for every other string. -/
theorem c10_get_display (sn : Styles.StyledNode) :
    (sn.value "display" = none → sn.get_display = Styles.Display.None) ∧
    (sn.value "display" = some (Css.Value.Other "block") →
      sn.get_display = Styles.Display.Block) ∧
    (sn.value "display" = some (Css.Value.Other "none") →
      sn.get_display = Styles.Display.None) ∧
    (sn.value "display" = some (Css.Value.Other "inline") →
      sn.get_display = Styles.Display.Inline) ∧
    (sn.value "display" = some (Css.Value.Other "inline-block") →
      sn.get_display = Styles.Display.InlineBlock) ∧
    (∀ v : String, sn.value "display" = some (Css.Value.Other v) →
      v ≠ "block" → v ≠ "none" → v ≠ "inline" → v ≠ "inline-block" →
      sn.get_display = Styles.Display.Inline) := by
  refine ⟨fun h => ?_, fun h => ?_, fun h => ?_, fun h => ?_, fun h => ?_,
    fun v h hv1 hv2 hv3 hv4 => ?_⟩
  all_goals simp [Styles.StyledNode.get_display, h]

/-- C10 witness: a node styled with `display: weird` classifies as
`Inline`. -/
theorem c10_get_display_witness :
    (Styles.StyledNode.mk ⟨[], Dom.NodeType.Text ""⟩
      [("display", Css.Value.Other "weird")] []).get_display =
      Styles.Display.Inline :=
  (c10_get_display _).2.2.2.2.2 "weird" rfl (by decide) (by decide) (by decide)
    (by decide)

theorem c2_helper : ∀ (f : Nat) (acc : List Css.Selector),
    CssParser.parse_selectors_loop f acc ("div.box \x7b width: 10px; \x7d".toList) = none := by
  intro f acc
  cases f with
  | zero => rfl
  | succ m =>
    cases m with
    | zero => rfl
    | succ k =>
      exact parse_selectors_loop_stuck '.' ("box \x7b width: 10px; \x7d".toList)
        (by decide) (by decide) (by decide) (k + 1)
        (acc ++ [⟨[⟨some "div", none, []⟩], []⟩])

/-- C2: on the input `"div.box \x7b width: 10px; \x7d"` the stylesheet parser
never returns at all, at any fuel: `parse_selector` reads the identifier
`div` but its token-scan loop (whose guard demands a comma) never consumes
`.box`, after which `parse_selectors` spins forever on the `.` — so no
stylesheet with classes `["box"]` (nor any other) is ever produced. -/
theorem c2_div_box_nonterminating :
    ∀ fuel, CssParser.parse_stylesheet fuel "div.box \x7b width: 10px; \x7d" = none := by
  intro fuel
  cases fuel with
  | zero => rfl
  | succ f =>
    have h := c2_helper f []
    simp at h
    simp [CssParser.parse_stylesheet, CssParser.parse_stylesheet_loop,
      CssParser.parse_selectors, h]

theorem c4_helper_a : ∀ (f : Nat) (acc : List Css.Selector),
    CssParser.parse_selectors_loop f acc ("p,div\x7bcolor:red;\x7d".toList) = none := by
  intro f acc
  cases f with
  | zero => rfl
  | succ m =>
    cases m with
    | zero => rfl
    | succ k =>
      have hsel : CssParser.parse_selector (k + 1) ("p,div\x7bcolor:red;\x7d".toList) = none := by
        have hloop := parse_selector_loop_comma ("div\x7bcolor:red;\x7d".toList) (k + 1)
          ⟨some "p", none, []⟩ false
        show (match CssParser.parse_selector_loop (k + 1) ⟨some "p", none, []⟩ false
                  (',' :: "div\x7bcolor:red;\x7d".toList) with
              | none => none
              | some (simple_sel, rest) =>
                some (if simple_sel ≠ Css.SimpleSelector.default
                      then (⟨[simple_sel], []⟩ : Css.Selector)
                      else Css.Selector.default, rest)) = none
        rw [hloop]
      simp at hsel
      simp [CssParser.parse_selectors_loop, hsel]

theorem c4_helper_b : ∀ (f : Nat) (acc : List Css.Selector),
    CssParser.parse_selectors_loop f acc ("#main\x7bmargin:2em\x7d".toList) = none := by
  intro f acc
  exact parse_selectors_loop_stuck '#' ("main\x7bmargin:2em\x7d".toList)
    (by decide) (by decide) (by decide) f acc

/-- C4: the stylesheet parser fails to terminate as the claim describes:
(a) the token-scan loop of `parse_selector` loops forever whenever the
next unconsumed character is `,`; (b) whenever the text at a selector
position starts with a character that is neither a valid identifier start
nor `{` nor whitespace, the loop in `parse_selectors` never terminates;
and on the two example inputs `"p,div\x7bcolor:red;\x7d"` and
`"#main\x7bmargin:2em\x7d"` the whole of `parse_stylesheet` diverges (returns
`none` at every fuel). -/
theorem c4_selector_nontermination :
    (∀ (rest : List Char) (f : Nat) (ss : Css.SimpleSelector) (mids : Bool),
      CssParser.parse_selector_loop f ss mids (',' :: rest) = none) ∧
    (∀ (c : Char) (rest : List Char), CssParser.is_valid_start_ident c = false →
      c ≠ '{' → c.isWhitespace = false →
      ∀ (f : Nat) (acc : List Css.Selector),
        CssParser.parse_selectors_loop f acc (c :: rest) = none) ∧
    (∀ fuel, CssParser.parse_stylesheet fuel "p,div\x7bcolor:red;\x7d" = none) ∧
    (∀ fuel, CssParser.parse_stylesheet fuel "#main\x7bmargin:2em\x7d" = none) := by
  refine ⟨fun rest => parse_selector_loop_comma rest,
    fun c rest h1 h2 h3 => parse_selectors_loop_stuck c rest h1 h2 h3, ?_, ?_⟩
  · intro fuel
    cases fuel with
    | zero => rfl
    | succ f =>
      have h := c4_helper_a f []
      simp at h
      simp [CssParser.parse_stylesheet, CssParser.parse_stylesheet_loop,
        CssParser.parse_selectors, h]
  · intro fuel
    cases fuel with
    | zero => rfl
    | succ f =>
      have h := c4_helper_b f []
      simp at h
      simp [CssParser.parse_stylesheet, CssParser.parse_stylesheet_loop,
        CssParser.parse_selectors, h]

/-- C4 witness: the non-termination theorem instantiated at concrete fuels
and inputs. -/
theorem c4_selector_nontermination_witness :
    CssParser.parse_selector_loop 5 Css.SimpleSelector.default false [','] = none ∧
    CssParser.parse_selectors_loop 5 [] ['#'] = none ∧
    CssParser.parse_stylesheet 9 "p,div\x7bcolor:red;\x7d" = none :=
  ⟨c4_selector_nontermination.1 [] 5 Css.SimpleSelector.default false,
   c4_selector_nontermination.2.1 '#' [] (by decide) (by decide) (by decide) 5 [],
   c4_selector_nontermination.2.2.1 9⟩

/-- C6: `Parser::parse` parses top-level nodes and, when exactly one
resulted, returns it as the root; otherwise (including zero nodes) it
returns a synthesized `html` element with no attributes whose children are
exactly the parsed top-level nodes in order. End to end: `""` gives an
empty `html` element, `"hi"` gives the bare text node, `"ab<b></b>"`
gives `html` wrapping the two nodes in order. -/
theorem c6_parse_wraps_html :
    (∀ (fuel : Nat) (source : String) (nodes : List ParserDom.Node) (rest : List Char),
      Markup.parse_nodes fuel [] source.toList = .ok (nodes, rest) →
      Markup.parse fuel source =
        (match nodes with
         | [node] => .ok node
         | ns => .ok (ParserDom.elem "html" [] ns))) ∧
    Markup.parse 8 "" = .ok (ParserDom.elem "html" [] []) ∧
    Markup.parse 8 "hi" = .ok (ParserDom.text "hi") ∧
    Markup.parse 12 "ab<b></b>" = .ok (ParserDom.elem "html" []
      [ParserDom.text "ab", ParserDom.elem "b" [] []]) := by
  refine ⟨fun fuel source nodes rest h => ?_, by rfl, by rfl, by rfl⟩
  have h0 : Markup.parse fuel source =
      (match Markup.parse_nodes fuel [] source.toList with
       | .error e => .error e
       | .ok (ns, _) =>
         match ns with
         | [node] => .ok node
         | ns => .ok (ParserDom.elem "html" [] ns)) := rfl
  rw [h0, h]

/-- C6 witness: the wrap rule applied to the single-node parse of
`"hi"`. -/
theorem c6_parse_wraps_html_witness : Markup.parse 9 "hi" = .ok (ParserDom.text "hi") :=
  c6_parse_wraps_html.1 9 "hi" [ParserDom.text "hi"] [] rfl

/-- C7: when the closing tag name differs from the opening tag name the
parse fails fatally: for every opening name `t` and closing name `t'`
drawn from the name-scanner character set with `t ≠ t'`, the closing-tag
phase of `parse_element` signals `expectedNotFound`; and end to end,
`"<a></b>"` aborts with the failed `expect` of `"a"` and produces no
tree. -/
theorem c7_mismatched_close_fatal :
    (∀ (t t' : String) (rest : List Char),
      t.toList.all Markup.name_char →
      t'.toList.all Markup.name_char →
      t ≠ t' →
      ∃ s, Markup.parse_element_close t ('<' :: '/' :: (t'.toList ++ '>' :: rest)) =
        Except.error (Markup.MarkupError.expectedNotFound s)) ∧
    Markup.parse 10 "<a></b>" = .error (Markup.MarkupError.expectedNotFound "a") := by
  refine ⟨fun t t' rest h1 h2 hne => ?_, by rfl⟩
  simp only [String.toList] at h1 h2 ⊢
  have hgtname : Markup.name_char '>' = false := by decide
  have hstep : Markup.expect "</" ('<' :: '/' :: (t'.data ++ '>' :: rest)) =
      .ok (t'.data ++ '>' :: rest) := by
    simp [Markup.expect, Markup.starts_with]
  by_cases hpre : t.data <+: (t'.data ++ '>' :: rest)
  case neg =>
    refine ⟨t, ?_⟩
    have hexp : Markup.expect t (t'.data ++ '>' :: rest) =
        .error (.expectedNotFound t) := by
      simp [Markup.expect, Markup.starts_with, hpre]
    simp only [Markup.parse_element_close]
    rw [hstep]
    show Except.bind (Markup.expect t (t'.data ++ '>' :: rest))
      (fun cs2 => Markup.expect ">" cs2) = .error (.expectedNotFound t)
    rw [hexp]
    rfl
  case pos =>
    have hgt : '>' ∉ t.data := by
      intro hmem
      have h := List.all_eq_true.mp h1 '>' hmem
      rw [hgtname] at h
      exact Bool.false_ne_true h
    have hlen : t.data.length ≤ t'.data.length := by
      by_contra hlt
      push_neg at hlt
      apply hgt
      have ht : t.data = List.take t.data.length (t'.data ++ '>' :: rest) :=
        List.prefix_iff_eq_take.mp hpre
      rw [List.take_append_eq_append_take,
        List.take_of_length_le (le_of_lt hlt)] at ht
      obtain ⟨k, hk⟩ : ∃ k, t.data.length - t'.data.length = k + 1 :=
        ⟨t.data.length - t'.data.length - 1, by omega⟩
      rw [hk, List.take_succ_cons] at ht
      rw [ht]
      simp
    have hpt : t.data <+: t'.data :=
      List.prefix_of_prefix_length_le hpre (List.prefix_append _ _) hlen
    have hneq : t.data ≠ t'.data := fun h => hne (String.ext h)
    have hstrict : t.data.length < t'.data.length :=
      lt_of_le_of_ne hlen (fun h => hneq (hpt.eq_of_length h))
    have hexp : Markup.expect t (t'.data ++ '>' :: rest) =
        .ok ((t'.data ++ '>' :: rest).drop t.data.length) := by
      simp [Markup.expect, Markup.starts_with, hpre]
    have hdrop : (t'.data ++ '>' :: rest).drop t.data.length =
        t'.data.drop t.data.length ++ '>' :: rest := by
      rw [List.drop_append_eq_append_drop, Nat.sub_eq_zero_of_le hlen]
      rfl
    have hnil : t'.data.drop t.data.length ≠ [] := by
      intro hd
      rw [List.drop_eq_nil_iff] at hd
      omega
    obtain ⟨d, ds, hds⟩ : ∃ d ds, t'.data.drop t.data.length = d :: ds := by
      cases hcase : t'.data.drop t.data.length with
      | nil => exact absurd hcase hnil
      | cons d ds => exact ⟨d, ds, rfl⟩
    have hdmem : d ∈ t'.data :=
      (List.drop_suffix _ _).subset (by rw [hds]; exact List.mem_cons_self _ _)
    have hdname : Markup.name_char d = true := List.all_eq_true.mp h2 d hdmem
    have hdne : d ≠ '>' := by
      rintro rfl
      rw [hgtname] at hdname
      exact Bool.false_ne_true hdname
    have hfinal : Markup.expect ">" (d :: (ds ++ '>' :: rest)) =
        .error (.expectedNotFound ">") := by
      simp [Markup.expect, Markup.starts_with, Ne.symm hdne]
    refine ⟨">", ?_⟩
    simp only [Markup.parse_element_close]
    rw [hstep]
    show Except.bind (Markup.expect t (t'.data ++ '>' :: rest))
      (fun cs2 => Markup.expect ">" cs2) = .error (.expectedNotFound ">")
    rw [hexp]
    show Markup.expect ">" ((t'.data ++ '>' :: rest).drop t.data.length) =
      .error (.expectedNotFound ">")
    rw [hdrop, hds]
    exact hfinal

/-- C7 witness: the closing-tag lemma applied to opening name `a` and
closing name `b`. -/
theorem c7_mismatched_close_fatal_witness :
    ∃ s, Markup.parse_element_close "a" ('<' :: '/' :: ("b".toList ++ '>' :: [])) =
      Except.error (Markup.MarkupError.expectedNotFound s) :=
  c7_mismatched_close_fatal.1 "a" "b" [] (by decide) (by decide) (by decide)
